import Mathlib

/-!
Verification of the Mission Control workflow orchestration core
(`workflows.py`): the workflow/step data model, the `WorkflowManager`
operations (`create_workflow`, `list_workflows`, `start_workflow`,
`cancel_workflow`) and the execution scheduler `_execute_workflow`.

Modelling conventions:
* wall-clock instants are abstract `Nat` ticks (`datetime.now()` becomes a
  parameter `now`/`clk`);
* generated uuids (`workflow.id`, `step.id`) are parameters;
* Python `float` truncation in `progress` (`int((completed/total)*100)`)
  is modelled as exact natural floor division `100 * completed / total`;
* Python `list.sort(key=..., reverse=True)` (a stable sort, descending by
  creation instant) is modelled by `List.insertionSort` with the relation
  `byCreatedDesc`, which is likewise stable;
* the remote dispatch and its settle wait are abstracted by a per-step
  outcome `Except String DispatchOutcome`: `Except.ok` is the result of
  the inner `try` (success or a caught dispatch exception), `Except.error`
  is an unexpected exception escaping to the scheduler's outermost
  handler;
* log messages keep the source texts with the surrounding quote marks
  around interpolated names omitted.
-/

namespace MissionControl

/-- Step lifecycle states, from `StepStatus` in `workflows.py`. -/
inductive StepStatus where
  | pending
  | running
  | completed
  | failed
  | skipped
deriving DecidableEq, Repr

/-- Workflow lifecycle states, from `WorkflowStatus` in `workflows.py`. -/
inductive WorkflowStatus where
  | pending
  | running
  | completed
  | failed
  | cancelled
deriving DecidableEq, Repr

/-- One step of a workflow, from class `WorkflowStep`. -/
structure WorkflowStep where
  id : String
  name : String
  description : String
  agent_type : String
  task_template : String
  depends_on : List String
  timeout_minutes : Nat
  status : StepStatus
  started_at : Option Nat
  completed_at : Option Nat
  result : Option String
  error : Option String
  subagent_id : Option String
deriving DecidableEq, Repr

/-- `WorkflowStep.__init__`: a freshly constructed step (template steps pass
no `depends_on`, so it defaults to the empty list). -/
def WorkflowStep.fresh (id name description agent_type task_template : String) :
    WorkflowStep :=
  { id := id
    name := name
    description := description
    agent_type := agent_type
    task_template := task_template
    depends_on := []
    timeout_minutes := 30
    status := StepStatus.pending
    started_at := none
    completed_at := none
    result := none
    error := none
    subagent_id := none }

/-- A log entry appended by `Workflow.add_log`. -/
structure LogEntry where
  time : Nat
  level : String
  message : String
deriving DecidableEq, Repr

/-- A workflow, from class `Workflow`. -/
structure Workflow where
  id : String
  name : String
  description : String
  team : String
  created_by : String
  status : WorkflowStatus
  steps : List WorkflowStep
  created_at : Nat
  started_at : Option Nat
  completed_at : Option Nat
  current_step_index : Nat
  logs : List LogEntry
deriving DecidableEq, Repr

/-- `Workflow.__init__`: a freshly constructed workflow. -/
def Workflow.fresh (id name description team created_by : String) (now : Nat) :
    Workflow :=
  { id := id
    name := name
    description := description
    team := team
    created_by := created_by
    status := WorkflowStatus.pending
    steps := []
    created_at := now
    started_at := none
    completed_at := none
    current_step_index := 0
    logs := [] }

/-- `Workflow.add_log`: appends a timestamped entry. -/
def Workflow.add_log (w : Workflow) (now : Nat) (level message : String) :
    Workflow :=
  { w with logs := w.logs ++ [{ time := now, level := level, message := message }] }

/-- Number of steps whose status is completed (the sum in
`Workflow.progress`). -/
def completedCount (w : Workflow) : Nat :=
  (w.steps.filter (fun s => s.status == StepStatus.completed)).length

/-- Round-half-to-even of the ratio `a / b`: the IEEE-754 nearest-even
choice between the two integers surrounding `a / b` (exact halves go to
the even neighbour). -/
def rheNat (a b : Nat) : Nat :=
  if 2 * (a % b) < b then a / b
  else if b < 2 * (a % b) then a / b + 1
  else if (a / b) % 2 = 0 then a / b else a / b + 1

/-- Smallest scaling exponent `k` (searched upward from `acc` with
explicit fuel) such that `a * 2 ^ k / b` reaches the binary64
normalization threshold `2 ^ 52`. For `a ≥ 1` the condition holds at
`k = 52 + b` at the latest (because `2 ^ b ≥ b`), so the fuel `53 + b`
passed by `flDiv` always suffices and the result is the true minimal
exponent. -/
def scaleK : Nat → Nat → Nat → Nat → Nat
  | 0, _, _, acc => acc
  | fuel + 1, a, b, acc =>
    if 2 ^ 52 * b ≤ a * 2 ^ acc then acc else scaleK fuel a b (acc + 1)

/-- The binary64 value (IEEE-754 double, round-to-nearest ties-to-even)
of the ratio `a / b`, returned exactly as a dyadic pair `(n, k)` standing
for `n / 2 ^ k`: the quotient is scaled by the minimal `2 ^ k` that puts
it in the normal significand range `[2 ^ 52, 2 ^ 53)` and the scaled
value is rounded to the nearest-even integer significand. Faithful for
`0 ≤ a / b < 2 ^ 53` with unbounded exponent range — every value arising
in `progress` (a quotient of step counts `≤ 1`, then that double times
`100`) is in that domain, far from subnormals and overflow. -/
def flDiv (a b : Nat) : Nat × Nat :=
  if a = 0 then (0, 0)
  else
    (rheNat (a * 2 ^ scaleK (53 + b) a b 0) b, scaleK (53 + b) a b 0)

/-- `Workflow.progress`: the source computes
`int((completed / len(steps)) * 100)` in IEEE-754 double arithmetic:
CPython's integer true-division is the correctly rounded double of the
exact quotient, the multiplication by the exactly representable `100.0`
is again correctly rounded, and `int()` truncates toward zero (floor, as
the value is nonnegative). Both roundings are modelled exactly by
`flDiv` on dyadic rationals; `0` for an empty step list. -/
def Workflow.progress (w : Workflow) : Nat :=
  if w.steps.isEmpty then 0
  else
    (flDiv (100 * (flDiv (completedCount w) w.steps.length).1)
        (2 ^ (flDiv (completedCount w) w.steps.length).2)).1 /
      2 ^ (flDiv (100 * (flDiv (completedCount w) w.steps.length).1)
        (2 ^ (flDiv (completedCount w) w.steps.length).2)).2

/-- One step blueprint of a template (`TEMPLATES[...]["steps"][i]`). -/
structure TemplateStep where
  name : String
  description : String
  agent_type : String
  task_template : String
deriving DecidableEq, Repr

/-- One entry of the template catalog (`TEMPLATES[key]`). -/
structure Template where
  name : String
  description : String
  steps : List TemplateStep
deriving DecidableEq, Repr

/-- The static template catalog `WorkflowManager.TEMPLATES`. -/
def TEMPLATES : List (String × Template) :=
  [ ("ci-cd",
     { name := "CI/CD Pipeline"
       description := "Pipeline completo de integração e deploy"
       steps :=
         [ { name := "Revisão de Código"
             description := "Análise automatizada do código"
             agent_type := "revisor"
             task_template := "Revise o código em busca de bugs, code smells e violações de boas práticas. Forneça sugestões de melhoria." }
         , { name := "Testes Unitários"
             description := "Execução de testes automatizados"
             agent_type := "testador"
             task_template := "Execute todos os testes unitários e gere relatório de cobertura." }
         , { name := "Testes de Integração"
             description := "Testes de integração entre componentes"
             agent_type := "testador"
             task_template := "Execute testes de integração e verifique comunicação entre serviços." }
         , { name := "Deploy"
             description := "Deploy da aplicação em produção"
             agent_type := "deployer"
             task_template := "Realize o deploy da aplicação seguindo o checklist de deploy." } ] })
  , ("analise-codigo",
     { name := "Análise de Código"
       description := "Análise completa de qualidade do código"
       steps :=
         [ { name := "Análise Estática"
             description := "Análise estática com linters"
             agent_type := "revisor"
             task_template := "Execute ferramentas de análise estática e identifique problemas." }
         , { name := "Análise de Segurança"
             description := "Scan de vulnerabilidades"
             agent_type := "especialista"
             task_template := "Identifique vulnerabilidades de segurança no código." }
         , { name := "Relatório"
             description := "Geração de relatório consolidado"
             agent_type := "analista"
             task_template := "Compile relatório com todas as findings e recomendações." } ] })
  , ("suporte",
     { name := "Triagem de Suporte"
       description := "Triagem automatizada de tickets"
       steps :=
         [ { name := "Classificação"
             description := "Classifica prioridade do ticket"
             agent_type := "analista"
             task_template := "Analise o ticket e classifique por severidade e área." }
         , { name := "Investigação"
             description := "Investiga preliminar do problema"
             agent_type := "especialista"
             task_template := "Investigue logs e identifique possíveis causas root." }
         , { name := "Escalonamento"
             description := "Encaminha para equipe adequada"
             agent_type := "gerente"
             task_template := "Determine qual equipe deve resolver o ticket." } ] }) ]

/-- `template in self.TEMPLATES` followed by `self.TEMPLATES[template]`. -/
def lookupTemplate (key : String) : Option Template :=
  (TEMPLATES.find? (fun p => p.1 == key)).map (fun p => p.2)

/-- The manager's mutable state: the workflow store `self.workflows`
(a dict, id → workflow) and the active-run registry `self._running`
(a dict, id → scheduler task handle, modelled as the set of registered
ids). -/
structure WorkflowManager where
  workflows : List (String × Workflow)
  running : List String
deriving DecidableEq, Repr

/-- `self.workflows.get(workflow_id)`. -/
def lookupWorkflow (m : WorkflowManager) (workflow_id : String) : Option Workflow :=
  (m.workflows.find? (fun p => p.1 == workflow_id)).map (fun p => p.2)

/-- `self.workflows[id] = wf`: dict assignment — replace the entry when the
key is present, append otherwise. -/
def putWf (l : List (String × Workflow)) (id : String) (wf : Workflow) :
    List (String × Workflow) :=
  if l.any (fun p => p.1 == id) then
    l.map (fun p => if p.1 == id then (id, wf) else p)
  else l ++ [(id, wf)]

/-- `self._running[id] = task`: register the scheduler handle for `id`. -/
def addRunning (l : List String) (id : String) : List String :=
  if l.contains id then l else l ++ [id]

/-- The steps seeded from a template by `create_workflow`'s loop; the
`i`-th generated step receives the fresh uuid `stepId i`. -/
def stepsFromTemplate (td : Template) (stepId : Nat → String) : List WorkflowStep :=
  td.steps.enum.map (fun p =>
    WorkflowStep.fresh (stepId p.1) p.2.name p.2.description p.2.agent_type p.2.task_template)

/-- `WorkflowManager.create_workflow`: builds a workflow, seeds steps from
the template when `template` is a non-empty known key (`if template and
template in self.TEMPLATES`), overrides an empty description with the
template's (`description or template_data["description"]`), stores it and
logs creation. Fresh uuids are the parameters `wfId` and `stepId`. -/
def create_workflow (m : WorkflowManager) (name description team : String)
    (template : Option String) (created_by : String)
    (wfId : String) (stepId : Nat → String) (now : Nat) :
    Workflow × WorkflowManager :=
  let wf : Workflow := Workflow.fresh wfId name description team created_by now
  let wf : Workflow :=
    match template with
    | none => wf
    | some t =>
      if t = "" then wf
      else
        match lookupTemplate t with
        | none => wf
        | some td =>
          { wf with
            description := if description = "" then td.description else description
            steps := wf.steps ++ stepsFromTemplate td stepId }
  let wf := wf.add_log now "info" ("Workflow " ++ name ++ " criado")
  (wf, { m with workflows := putWf m.workflows wfId wf })

/-- The sort relation of `list_workflows`: descending creation instant
(`key=lambda w: w.created_at, reverse=True`). -/
def byCreatedDesc (a b : Workflow) : Prop :=
  b.created_at ≤ a.created_at

instance : DecidableRel byCreatedDesc :=
  fun a b => Nat.decLe b.created_at a.created_at

instance : IsTotal Workflow byCreatedDesc :=
  ⟨fun a b => Nat.le_total b.created_at a.created_at⟩

instance : IsTrans Workflow byCreatedDesc :=
  ⟨fun _ _ _ hab hbc => Nat.le_trans hbc hab⟩

/-- `WorkflowManager.list_workflows`: optional exact status filter, stable
sort by creation instant descending, truncation to `limit`. -/
def list_workflows (m : WorkflowManager) (status : Option WorkflowStatus)
    (limit : Nat) : List Workflow :=
  let ws := m.workflows.map (fun p => p.2)
  let ws :=
    match status with
    | some st => ws.filter (fun w => w.status == st)
    | none => ws
  (List.insertionSort byCreatedDesc ws).take limit

/-- `WorkflowManager.start_workflow`, synchronous part: reject an unknown
id or a workflow already running; otherwise flip the workflow to running,
record the start instant, log, register the scheduler handle and report
success. The spawned background scheduler itself is `execute_workflow`. -/
def start_workflow (m : WorkflowManager) (workflow_id : String) (now : Nat) :
    Bool × WorkflowManager :=
  match lookupWorkflow m workflow_id with
  | none => (false, m)
  | some wf =>
    if wf.status = WorkflowStatus.running then (false, m)
    else
      let wf := ({ wf with
          status := WorkflowStatus.running
          started_at := some now }).add_log now "info" "Workflow iniciado"
      (true,
        { workflows := putWf m.workflows workflow_id wf
          running := addRunning m.running workflow_id })

/-- `WorkflowManager.cancel_workflow`: fail on an unknown id; otherwise
cancel and deregister any scheduler handle, force the status to cancelled,
record the completion instant, log, and report success. -/
def cancel_workflow (m : WorkflowManager) (workflow_id : String) (now : Nat) :
    Bool × WorkflowManager :=
  match lookupWorkflow m workflow_id with
  | none => (false, m)
  | some wf =>
    let running2 := m.running.filter (fun r => r != workflow_id)
    let wf := ({ wf with
        status := WorkflowStatus.cancelled
        completed_at := some now }).add_log now "warning" "Workflow cancelado pelo usuário"
    (true, { workflows := putWf m.workflows workflow_id wf, running := running2 })

/-- Outcome of one step's inner `try` in `_execute_workflow`: either the
dispatch and settle succeed (`success`, carrying the remote subagent id
recorded when a dispatch port is present, `none` in pure simulation mode),
or an exception is caught by the inner handler (`failure` with its
message). -/
inductive DispatchOutcome where
  | success (subagentId : Option String)
  | failure (msg : String)
deriving DecidableEq, Repr

/-- Per-iteration behaviour of the environment during a scheduler run:
`Except.ok` is the inner-try outcome for the step examined at that index;
`Except.error` is an unexpected exception raised during that iteration
outside the inner `try`, escaping to the scheduler's outermost handler. -/
abbrev Outcome := Nat → Except String DispatchOutcome

/-- How the scheduler's main loop ended: all indices processed
(`finished`), early exit through the `break` after a step failure
(`broke`), or an unexpected exception escaping the loop (`crashed`),
each carrying the workflow state at that point. -/
inductive ExecResult where
  | finished (w : Workflow)
  | broke (w : Workflow)
  | crashed (w : Workflow) (msg : String)
deriving DecidableEq, Repr

/-- The workflow state carried by an `ExecResult`. -/
def ExecResult.wf : ExecResult → Workflow
  | ExecResult.finished w => w
  | ExecResult.broke w => w
  | ExecResult.crashed w _ => w

/-- The `pending_deps` comprehension: the steps of the workflow whose id
appears in `step.depends_on` and whose status is not completed. Note it
ranges over the existing steps only, so a `depends_on` entry matching no
step blocks nothing. -/
def pendingDeps (steps : List WorkflowStep) (step : WorkflowStep) :
    List WorkflowStep :=
  steps.filter (fun s =>
    step.depends_on.contains s.id && !(s.status == StepStatus.completed))

/-- In-place mutation of the `i`-th element of a step list (Python mutates
the step object held at position `i`). -/
def modifyAt (l : List WorkflowStep) (i : Nat) (f : WorkflowStep → WorkflowStep) :
    List WorkflowStep :=
  match l, i with
  | [], _ => []
  | s :: rest, 0 => f s :: rest
  | s :: rest, Nat.succ j => s :: modifyAt rest j f

/-- In-place mutation of the `i`-th step of a workflow. -/
def setStep (w : Workflow) (i : Nat) (f : WorkflowStep → WorkflowStep) :
    Workflow :=
  { w with steps := modifyAt w.steps i f }

/-- `workflow.current_step_index = i`, the first statement of each loop
iteration. -/
def withCursor (w : Workflow) (i : Nat) : Workflow :=
  { w with current_step_index := i }

/-- The unmet-dependency branch: the step is re-set to pending and a
warning is logged. -/
def stepSkip (clk : Nat) (w : Workflow) (i : Nat) (step : WorkflowStep) :
    Workflow :=
  (setStep w i (fun s => { s with status := StepStatus.pending })).add_log
    clk "warning" ("Etapa " ++ step.name ++ " aguardando dependências")

/-- The dispatch prologue: the step is marked running with its start
instant, and the start is logged. -/
def stepStart (clk : Nat) (w : Workflow) (i : Nat) (step : WorkflowStep) :
    Workflow :=
  (setStep w i (fun s =>
    { s with status := StepStatus.running, started_at := some clk })).add_log
      clk "info" ("Etapa " ++ step.name ++ " iniciada")

/-- A successful dispatch and settle: after the prologue, the step gets
the remote subagent id, is marked completed with its completion instant
and success marker, and success is logged. -/
def stepComplete (clk : Nat) (w : Workflow) (i : Nat) (step : WorkflowStep)
    (sid : Option String) : Workflow :=
  (setStep (stepStart clk w i step) i (fun s =>
    { s with
      subagent_id := sid
      status := StepStatus.completed
      completed_at := some clk
      result := some "Concluído com sucesso" })).add_log
        clk "success" ("Etapa " ++ step.name ++ " concluída")

/-- A dispatch failure caught by the inner handler: after the prologue,
the step is marked failed with its error text, the failure is logged, and
the whole workflow is marked failed (the loop then `break`s). -/
def stepFail (clk : Nat) (w : Workflow) (i : Nat) (step : WorkflowStep)
    (msg : String) : Workflow :=
  { (setStep (stepStart clk w i step) i (fun s =>
      { s with status := StepStatus.failed, error := some msg })).add_log
        clk "error" ("Etapa " ++ step.name ++ " falhou: " ++ msg) with
    status := WorkflowStatus.failed }

/-- The main loop of `_execute_workflow` over the remaining iteration
indices (the full run uses `List.range workflow.steps.length`, matching
`for i, step in enumerate(workflow.steps)` — the list object's length
never changes during the run). Each iteration: update the cursor, collect
`pending_deps` against the current statuses; if non-empty, re-set the step
to pending, log a warning and continue; otherwise mark it running, log,
dispatch, and either complete the step (success) or mark step and
workflow failed and `break` (caught dispatch failure). An `Except.error`
outcome aborts the loop with the current state. -/
def execSteps (outcome : Outcome) (clk : Nat) :
    List Nat → Workflow → ExecResult
  | [], w => ExecResult.finished w
  | i :: rest, w =>
    match outcome i with
    | Except.error msg => ExecResult.crashed w msg
    | Except.ok d =>
      match w.steps[i]? with
      | none => execSteps outcome clk rest (withCursor w i)
      | some step =>
        if (pendingDeps w.steps step).isEmpty then
          match d with
          | DispatchOutcome.success sid =>
            execSteps outcome clk rest (stepComplete clk (withCursor w i) i step sid)
          | DispatchOutcome.failure msg =>
            ExecResult.broke (stepFail clk (withCursor w i) i step msg)
        else
          execSteps outcome clk rest (stepSkip clk (withCursor w i) i step)

/-- The code after the loop in `_execute_workflow`: if the workflow is not
failed, mark it completed and log; in every case record the completion
instant. -/
def finalizeRun (clk : Nat) (w : Workflow) : Workflow :=
  let w1 :=
    if w.status ≠ WorkflowStatus.failed then
      ({ w with status := WorkflowStatus.completed }).add_log
        clk "success" "Workflow concluído com sucesso"
    else w
  { w1 with completed_at := some clk }

/-- `_execute_workflow`, one whole scheduler run over a workflow: run the
main loop over all step indices; on normal exit (including the `break`
after a step failure) finalize; on an unexpected exception the outermost
handler forces the status to failed and logs, recording no completion
instant. (The `finally` block deregisters the run from the manager's
registry; it touches no workflow field.) -/
def execute_workflow (outcome : Outcome) (clk : Nat) (w : Workflow) : Workflow :=
  match execSteps outcome clk (List.range w.steps.length) w with
  | ExecResult.finished w2 => finalizeRun clk w2
  | ExecResult.broke w2 => finalizeRun clk w2
  | ExecResult.crashed w2 msg =>
    ({ w2 with status := WorkflowStatus.failed }).add_log
      clk "error" ("Erro na execução: " ++ msg)

/-- Sequencing of loop fragments: a later fragment runs only when the
earlier one finished normally. -/
def ExecResult.seq (r : ExecResult) (f : Workflow → ExecResult) : ExecResult :=
  match r with
  | ExecResult.finished w => f w
  | r => r

/-- A workflow status is terminal when it is completed, failed or
cancelled. -/
def isTerminal (s : WorkflowStatus) : Prop :=
  s = WorkflowStatus.completed ∨ s = WorkflowStatus.failed ∨
    s = WorkflowStatus.cancelled

/-! ### Concrete fixtures used to evaluate the definitions -/

/-- A step depending (forward) on the step with id `b`. -/
def stepAEx : WorkflowStep :=
  { WorkflowStep.fresh "a" "A" "" "assistente" "" with depends_on := ["b"] }

def stepBEx : WorkflowStep := WorkflowStep.fresh "b" "B" "" "assistente" ""

def stepCEx : WorkflowStep := WorkflowStep.fresh "c" "C" "" "assistente" ""

/-- A started workflow whose first step depends on the id of its second
step — the single forward pass examines the dependency before it can
complete. -/
def wfFwdDepEx : Workflow :=
  { Workflow.fresh "wf1" "W" "" "" "system" 0 with
    status := WorkflowStatus.running
    started_at := some 1
    steps := [stepAEx, stepBEx] }

/-- A started two-step workflow with no dependencies. -/
def wfPlainEx : Workflow :=
  { Workflow.fresh "wf2" "W2" "" "" "system" 0 with
    status := WorkflowStatus.running
    started_at := some 1
    steps := [stepBEx, stepCEx] }

/-- A workflow already in the terminal status completed. -/
def wfDoneEx : Workflow :=
  { Workflow.fresh "wf3" "W3" "" "" "system" 0 with
    status := WorkflowStatus.completed
    completed_at := some 2 }

/-- A workflow currently running. -/
def wfRunningEx : Workflow :=
  { Workflow.fresh "wf4" "W4" "" "" "system" 5 with
    status := WorkflowStatus.running
    started_at := some 6 }

def mgrDoneEx : WorkflowManager :=
  { workflows := [("wf3", wfDoneEx)], running := [] }

def mgrRunningEx : WorkflowManager :=
  { workflows := [("wf4", wfRunningEx)], running := ["wf4"] }

def mgrEmptyEx : WorkflowManager := { workflows := [], running := [] }

/-- A manager holding two workflows with distinct creation instants. -/
def mgrTwoEx : WorkflowManager :=
  { workflows := [("wf3", wfDoneEx), ("wf4", wfRunningEx)], running := ["wf4"] }

/-- Every dispatch succeeds (pure simulation mode: no subagent id). -/
def outcomeAllOkEx : Outcome := fun _ => Except.ok (DispatchOutcome.success none)

/-- The first step's dispatch raises a failure caught by the inner
handler; later dispatches would succeed. -/
def outcomeFailEx : Outcome := fun k =>
  if k = 0 then Except.ok (DispatchOutcome.failure "boom")
  else Except.ok (DispatchOutcome.success none)

/-- Every iteration raises an unexpected exception escaping to the
outermost handler. -/
def outcomeCrashEx : Outcome := fun _ => Except.error "surpresa"

/-- A fixed uuid supply for seeded steps. -/
def stepIdEx : Nat → String := fun _ => "s"

/-- A step already completed. -/
def stepDoneEx : WorkflowStep :=
  { WorkflowStep.fresh "d" "D" "" "assistente" "" with
    status := StepStatus.completed }

/-- A workflow with 100 steps of which exactly 29 are completed; the
program computes its progress as `int((29/100)*100)` in doubles, which
is 28 — one below the exact floor 29. -/
def wfHundredEx : Workflow :=
  { Workflow.fresh "wf5" "W5" "" "" "system" 0 with
    steps := List.replicate 29 stepDoneEx ++ List.replicate 71 stepBEx }

/-! ### Basic lemmas about the embedding -/

theorem modifyAt_length (l : List WorkflowStep) (i : Nat)
    (f : WorkflowStep → WorkflowStep) : (modifyAt l i f).length = l.length := by
  induction l generalizing i with
  | nil => rfl
  | cons s rest ih =>
    cases i with
    | zero => simp [modifyAt]
    | succ j => simp [modifyAt, ih]

theorem modifyAt_getElem?_self (l : List WorkflowStep) (i : Nat)
    (f : WorkflowStep → WorkflowStep) : (modifyAt l i f)[i]? = (l[i]?).map f := by
  induction l generalizing i with
  | nil => simp [modifyAt]
  | cons s rest ih =>
    cases i with
    | zero => simp [modifyAt]
    | succ j => simpa [modifyAt] using ih j

theorem modifyAt_getElem?_ne (l : List WorkflowStep) (i j : Nat)
    (f : WorkflowStep → WorkflowStep) (h : j ≠ i) :
    (modifyAt l i f)[j]? = l[j]? := by
  induction l generalizing i j with
  | nil => simp [modifyAt]
  | cons s rest ih =>
    cases i with
    | zero =>
      cases j with
      | zero => exact absurd rfl h
      | succ k => simp [modifyAt]
    | succ i2 =>
      cases j with
      | zero => simp [modifyAt]
      | succ k => simpa [modifyAt] using ih i2 k (fun hh => h (by omega))

theorem withCursor_steps (w : Workflow) (i : Nat) :
    (withCursor w i).steps = w.steps := rfl

theorem withCursor_status (w : Workflow) (i : Nat) :
    (withCursor w i).status = w.status := rfl

theorem withCursor_completed_at (w : Workflow) (i : Nat) :
    (withCursor w i).completed_at = w.completed_at := rfl

theorem stepSkip_steps (clk : Nat) (w : Workflow) (i : Nat) (step : WorkflowStep) :
    (stepSkip clk w i step).steps =
      modifyAt w.steps i (fun s => { s with status := StepStatus.pending }) := rfl

theorem stepComplete_steps (clk : Nat) (w : Workflow) (i : Nat)
    (step : WorkflowStep) (sid : Option String) :
    (stepComplete clk w i step sid).steps =
      modifyAt (modifyAt w.steps i (fun s =>
        { s with status := StepStatus.running, started_at := some clk })) i
        (fun s =>
          { s with
            subagent_id := sid
            status := StepStatus.completed
            completed_at := some clk
            result := some "Concluído com sucesso" }) := rfl

theorem stepFail_steps (clk : Nat) (w : Workflow) (i : Nat)
    (step : WorkflowStep) (msg : String) :
    (stepFail clk w i step msg).steps =
      modifyAt (modifyAt w.steps i (fun s =>
        { s with status := StepStatus.running, started_at := some clk })) i
        (fun s => { s with status := StepStatus.failed, error := some msg }) := rfl

theorem stepSkip_status (clk : Nat) (w : Workflow) (i : Nat) (step : WorkflowStep) :
    (stepSkip clk w i step).status = w.status := rfl

theorem stepComplete_status (clk : Nat) (w : Workflow) (i : Nat)
    (step : WorkflowStep) (sid : Option String) :
    (stepComplete clk w i step sid).status = w.status := rfl

theorem stepFail_status (clk : Nat) (w : Workflow) (i : Nat)
    (step : WorkflowStep) (msg : String) :
    (stepFail clk w i step msg).status = WorkflowStatus.failed := rfl

theorem stepSkip_completed_at (clk : Nat) (w : Workflow) (i : Nat)
    (step : WorkflowStep) : (stepSkip clk w i step).completed_at = w.completed_at := rfl

theorem stepComplete_completed_at (clk : Nat) (w : Workflow) (i : Nat)
    (step : WorkflowStep) (sid : Option String) :
    (stepComplete clk w i step sid).completed_at = w.completed_at := rfl

theorem stepFail_completed_at (clk : Nat) (w : Workflow) (i : Nat)
    (step : WorkflowStep) (msg : String) :
    (stepFail clk w i step msg).completed_at = w.completed_at := rfl

theorem stepSkip_cursor (clk : Nat) (w : Workflow) (i : Nat) (step : WorkflowStep) :
    (stepSkip clk w i step).current_step_index = w.current_step_index := rfl

theorem stepFail_cursor (clk : Nat) (w : Workflow) (i : Nat)
    (step : WorkflowStep) (msg : String) :
    (stepFail clk w i step msg).current_step_index = w.current_step_index := rfl

theorem finalizeRun_steps (clk : Nat) (w : Workflow) :
    (finalizeRun clk w).steps = w.steps := by
  unfold finalizeRun
  split <;> rfl

theorem finalizeRun_cursor (clk : Nat) (w : Workflow) :
    (finalizeRun clk w).current_step_index = w.current_step_index := by
  unfold finalizeRun
  split <;> rfl

theorem finalizeRun_completed_at (clk : Nat) (w : Workflow) :
    (finalizeRun clk w).completed_at = some clk := by
  unfold finalizeRun
  split <;> rfl

theorem finalizeRun_status_of_failed (clk : Nat) (w : Workflow)
    (h : w.status = WorkflowStatus.failed) :
    (finalizeRun clk w).status = WorkflowStatus.failed := by
  unfold finalizeRun
  split
  · next hne => exact absurd h hne
  · simpa using h

theorem finalizeRun_status_of_not_failed (clk : Nat) (w : Workflow)
    (h : w.status ≠ WorkflowStatus.failed) :
    (finalizeRun clk w).status = WorkflowStatus.completed := by
  unfold finalizeRun
  split
  · rfl
  · next hne => exact absurd h (by simpa using hne)

theorem execSteps_steps_length (outcome : Outcome) (clk : Nat) (is : List Nat)
    (w : Workflow) :
    ((execSteps outcome clk is w).wf).steps.length = w.steps.length := by
  induction is generalizing w with
  | nil => rfl
  | cons i rest ih =>
    rw [execSteps]
    cases houtcome : outcome i with
    | error msg => rfl
    | ok d =>
      cases hstep : w.steps[i]? with
      | none => exact ih (withCursor w i)
      | some step =>
        dsimp only
        by_cases hdeps : (pendingDeps w.steps step).isEmpty
        · rw [if_pos hdeps]
          cases d with
          | success sid =>
            rw [ih (stepComplete clk (withCursor w i) i step sid)]
            simp [stepComplete_steps, withCursor_steps, modifyAt_length]
          | failure msg =>
            simp [ExecResult.wf, stepFail_steps, withCursor_steps, modifyAt_length]
        · rw [if_neg hdeps]
          rw [ih (stepSkip clk (withCursor w i) i step)]
          simp [stepSkip_steps, withCursor_steps, modifyAt_length]

theorem execSteps_getElem?_of_ne (outcome : Outcome) (clk : Nat) (is : List Nat)
    (w : Workflow) (j : Nat) (h : ∀ k ∈ is, k ≠ j) :
    ((execSteps outcome clk is w).wf).steps[j]? = w.steps[j]? := by
  induction is generalizing w with
  | nil => rfl
  | cons i rest ih =>
    have hij : i ≠ j := h i (List.mem_cons_self i rest)
    have hrest : ∀ k ∈ rest, k ≠ j := fun k hk => h k (List.mem_cons_of_mem i hk)
    rw [execSteps]
    cases houtcome : outcome i with
    | error msg => rfl
    | ok d =>
      cases hstep : w.steps[i]? with
      | none => exact ih (withCursor w i) hrest
      | some step =>
        dsimp only
        by_cases hdeps : (pendingDeps w.steps step).isEmpty
        · rw [if_pos hdeps]
          cases d with
          | success sid =>
            rw [ih (stepComplete clk (withCursor w i) i step sid) hrest]
            rw [stepComplete_steps, withCursor_steps,
              modifyAt_getElem?_ne _ _ _ _ (fun hh => hij hh.symm),
              modifyAt_getElem?_ne _ _ _ _ (fun hh => hij hh.symm)]
          | failure msg =>
            show (stepFail clk (withCursor w i) i step msg).steps[j]? = w.steps[j]?
            rw [stepFail_steps, withCursor_steps,
              modifyAt_getElem?_ne _ _ _ _ (fun hh => hij hh.symm),
              modifyAt_getElem?_ne _ _ _ _ (fun hh => hij hh.symm)]
        · rw [if_neg hdeps]
          rw [ih (stepSkip clk (withCursor w i) i step) hrest]
          rw [stepSkip_steps, withCursor_steps,
            modifyAt_getElem?_ne _ _ _ _ (fun hh => hij hh.symm)]

theorem execSteps_completed_at (outcome : Outcome) (clk : Nat) (is : List Nat)
    (w : Workflow) :
    ((execSteps outcome clk is w).wf).completed_at = w.completed_at := by
  induction is generalizing w with
  | nil => rfl
  | cons i rest ih =>
    rw [execSteps]
    cases houtcome : outcome i with
    | error msg => rfl
    | ok d =>
      cases hstep : w.steps[i]? with
      | none => exact ih (withCursor w i)
      | some step =>
        dsimp only
        by_cases hdeps : (pendingDeps w.steps step).isEmpty
        · rw [if_pos hdeps]
          cases d with
          | success sid =>
            rw [ih (stepComplete clk (withCursor w i) i step sid)]
            rfl
          | failure msg => rfl
        · rw [if_neg hdeps]
          rw [ih (stepSkip clk (withCursor w i) i step)]
          rfl

theorem execSteps_all_success (outcome : Outcome) (clk : Nat) (is : List Nat)
    (w : Workflow)
    (h : ∀ k ∈ is, ∃ sid, outcome k = Except.ok (DispatchOutcome.success sid)) :
    ∃ w2, execSteps outcome clk is w = ExecResult.finished w2 ∧
      w2.status = w.status := by
  induction is generalizing w with
  | nil => exact ⟨w, rfl, rfl⟩
  | cons i rest ih =>
    obtain ⟨sid, hok⟩ := h i (List.mem_cons_self i rest)
    have hrest : ∀ k ∈ rest, ∃ sid2, outcome k = Except.ok (DispatchOutcome.success sid2) :=
      fun k hk => h k (List.mem_cons_of_mem i hk)
    rw [execSteps, hok]
    cases hstep : w.steps[i]? with
    | none => exact ih (withCursor w i) hrest
    | some step =>
      dsimp only
      by_cases hdeps : (pendingDeps w.steps step).isEmpty
      · rw [if_pos hdeps]
        obtain ⟨w2, heq, hst⟩ := ih (stepComplete clk (withCursor w i) i step sid) hrest
        exact ⟨w2, heq, hst⟩
      · rw [if_neg hdeps]
        obtain ⟨w2, heq, hst⟩ := ih (stepSkip clk (withCursor w i) i step) hrest
        exact ⟨w2, heq, hst⟩

theorem execSteps_append (outcome : Outcome) (clk : Nat) (is1 is2 : List Nat)
    (w : Workflow) :
    execSteps outcome clk (is1 ++ is2) w =
      ExecResult.seq (execSteps outcome clk is1 w)
        (fun w2 => execSteps outcome clk is2 w2) := by
  induction is1 generalizing w with
  | nil => rfl
  | cons i rest ih =>
    rw [List.cons_append, execSteps, execSteps]
    cases houtcome : outcome i with
    | error msg => rfl
    | ok d =>
      cases hstep : w.steps[i]? with
      | none => exact ih (withCursor w i)
      | some step =>
        dsimp only
        by_cases hdeps : (pendingDeps w.steps step).isEmpty
        · simp only [if_pos hdeps]
          cases d with
          | success sid => exact ih (stepComplete clk (withCursor w i) i step sid)
          | failure msg => rfl
        · simp only [if_neg hdeps]
          exact ih (stepSkip clk (withCursor w i) i step)

/-- Splitting the full index range at a position `i`: everything after the
prefix has index at least `i`, and strictly greater past the head. -/
theorem range_split (i n : Nat) (h : i < n) :
    ∃ tail : List Nat, List.range n = List.range i ++ i :: tail ∧
      ∀ j ∈ tail, i < j := by
  obtain ⟨m, rfl⟩ : ∃ m, n = i + (m + 1) := ⟨n - i - 1, by omega⟩
  refine ⟨(List.range m).map (fun k => i + Nat.succ k), ?_, ?_⟩
  · rw [List.range_add, List.range_succ_eq_map]
    simp only [List.map_cons, List.map_map, Nat.add_zero]
    rfl
  · intro j hj
    simp only [List.mem_map] at hj
    obtain ⟨k, _, hk⟩ := hj
    omega

theorem find?_map_replace (l : List (String × Workflow)) (id : String)
    (wf : Workflow) (hany : l.any (fun p => p.1 == id) = true) :
    (l.map (fun p => if p.1 == id then (id, wf) else p)).find?
      (fun p => p.1 == id) = some (id, wf) := by
  induction l with
  | nil => simp at hany
  | cons p rest ih =>
    rw [List.map_cons]
    by_cases hp : (p.1 == id) = true
    · rw [if_pos hp, List.find?_cons]
      have htest : ((id, wf).1 == id) = true := by simp
      rw [htest]
    · have hp2 : (p.1 == id) = false := by
        cases hb : (p.1 == id) with
        | true => exact absurd hb hp
        | false => rfl
      have hrest : rest.any (fun q => q.1 == id) = true := by
        have h2 := hany
        simp only [List.any_cons, hp2, Bool.false_or] at h2
        exact h2
      rw [if_neg hp, List.find?_cons]
      rw [hp2]
      exact ih hrest

theorem find?_putWf (l : List (String × Workflow)) (id : String)
    (wf : Workflow) :
    (putWf l id wf).find? (fun p => p.1 == id) = some (id, wf) := by
  unfold putWf
  by_cases hany : l.any (fun p => p.1 == id) = true
  · rw [if_pos hany]
    exact find?_map_replace l id wf hany
  · rw [if_neg hany]
    rw [List.find?_append]
    have hnone : l.find? (fun p => p.1 == id) = none := by
      rw [List.find?_eq_none]
      intro x hx
      have := List.any_eq_false.mp (Bool.eq_false_iff.mpr hany) x hx
      simpa using this
    simp [hnone]

theorem lookupWorkflow_put (l : List (String × Workflow))
    (running2 : List String) (id : String) (wf : Workflow) :
    lookupWorkflow { workflows := putWf l id wf, running := running2 } id =
      some wf := by
  unfold lookupWorkflow
  simp only []
  rw [find?_putWf]
  rfl

/-- Half-ulp bound for nearest-even rounding of a ratio: the rounded
integer exceeds `a / b` by at most one half. -/
theorem rheNat_le (a b : Nat) : 2 * b * rheNat a b ≤ 2 * a + b := by
  have hdm : b * (a / b) + a % b = a := Nat.div_add_mod a b
  unfold rheNat
  split_ifs with h1 h2 h3
  · rw [Nat.mul_assoc]
    revert hdm h1
    generalize b * (a / b) = m
    generalize a % b = r
    intro h h2
    omega
  · rw [Nat.mul_add, Nat.mul_one, Nat.mul_assoc]
    revert hdm h2
    generalize b * (a / b) = m
    generalize a % b = r
    intro h h2
    omega
  · rw [Nat.mul_assoc]
    revert hdm h1
    generalize b * (a / b) = m
    generalize a % b = r
    intro h h2
    omega
  · rw [Nat.mul_add, Nat.mul_one, Nat.mul_assoc]
    revert hdm h1
    generalize b * (a / b) = m
    generalize a % b = r
    intro h h2
    omega

/-- The significand returned by `flDiv` obeys the half-ulp bound. -/
theorem flDiv_le (a b : Nat) :
    2 * b * (flDiv a b).1 ≤ 2 * (a * 2 ^ (flDiv a b).2) + b := by
  unfold flDiv
  split
  · simp
  · exact rheNat_le _ _

/-- The whole double-rounded progress pipeline stays at or below 100
whenever the completed count is at most the total count. -/
theorem progress_core_le_100 (c t : Nat) (hc : c ≤ t) (ht : 0 < t) :
    (flDiv (100 * (flDiv c t).1) (2 ^ (flDiv c t).2)).1 /
      2 ^ (flDiv (100 * (flDiv c t).1) (2 ^ (flDiv c t).2)).2 ≤ 100 := by
  set n1 := (flDiv c t).1 with hn1
  set k1 := (flDiv c t).2 with hk1
  set n2 := (flDiv (100 * n1) (2 ^ k1)).1 with hn2
  set k2 := (flDiv (100 * n1) (2 ^ k1)).2 with hk2
  have hB : n1 ≤ 2 ^ k1 := by
    have h1 := flDiv_le c t
    rw [← hn1, ← hk1] at h1
    have hct : c * 2 ^ k1 ≤ t * 2 ^ k1 := Nat.mul_le_mul_right _ hc
    have h2 : 2 * t * n1 ≤ 2 * (t * 2 ^ k1) + t :=
      le_trans h1 (Nat.add_le_add_right (Nat.mul_le_mul_left 2 hct) t)
    have e1 : 2 * t * n1 = t * (2 * n1) := by ring
    have e2 : 2 * (t * 2 ^ k1) + t = t * (2 * 2 ^ k1 + 1) := by ring
    rw [e1, e2] at h2
    have h3 : 2 * n1 ≤ 2 * 2 ^ k1 + 1 := Nat.le_of_mul_le_mul_left h2 ht
    omega
  have hC : n2 ≤ 100 * 2 ^ k2 := by
    have h1 := flDiv_le (100 * n1) (2 ^ k1)
    rw [← hn2, ← hk2] at h1
    have hp : 0 < 2 ^ k1 := Nat.pos_pow_of_pos k1 (by omega)
    have hchain : 100 * n1 * 2 ^ k2 ≤ 100 * 2 ^ k1 * 2 ^ k2 :=
      Nat.mul_le_mul_right _ (Nat.mul_le_mul_left 100 hB)
    have h2 : 2 * 2 ^ k1 * n2 ≤ 2 * (100 * 2 ^ k1 * 2 ^ k2) + 2 ^ k1 :=
      le_trans h1
        (Nat.add_le_add_right (Nat.mul_le_mul_left 2 hchain) (2 ^ k1))
    have e1 : 2 * 2 ^ k1 * n2 = 2 ^ k1 * (2 * n2) := by ring
    have e2 : 2 * (100 * 2 ^ k1 * 2 ^ k2) + 2 ^ k1 =
        2 ^ k1 * (2 * (100 * 2 ^ k2) + 1) := by ring
    rw [e1, e2] at h2
    have h3 : 2 * n2 ≤ 2 * (100 * 2 ^ k2) + 1 :=
      Nat.le_of_mul_le_mul_left h2 hp
    omega
  calc n2 / 2 ^ k2 ≤ 100 * 2 ^ k2 / 2 ^ k2 := Nat.div_le_div_right hC
    _ = 100 := Nat.mul_div_cancel 100 (Nat.pos_pow_of_pos k2 (by omega))

/-! ### Claim theorems -/

/-- C6 amended: for every workflow the computed progress lies in
[0, 100] and equals 0 when the workflow has zero steps; it is the
binary64 evaluation of `int((completed / total) * 100)`, whose two
roundings can land strictly below the exact `floor(100 × completed /
total)` (see the counterexample: 28 instead of 29 at 29 completed of 100
steps). -/
theorem progress_binary64_bounds (w : Workflow) :
    w.progress ≤ 100
    ∧ (w.steps.isEmpty = true → w.progress = 0) := by
  have hc : completedCount w ≤ w.steps.length := List.length_filter_le _ _
  constructor
  · unfold Workflow.progress
    split
    · exact Nat.zero_le 100
    · next hne =>
      have ht : 0 < w.steps.length := by
        cases hl : w.steps with
        | nil => rw [hl] at hne; simp at hne
        | cons a l => simp
      exact progress_core_le_100 (completedCount w) w.steps.length hc ht
  · intro he
    unfold Workflow.progress
    rw [if_pos he]

/-- C6 counterexample: at 29 completed of 100 steps the program's
binary64 arithmetic gives progress 28 — the double `(29/100)*100` is
`28.999999999999996…`, truncated by `int()` to 28 — while the claimed
exact formula `floor(100 × 29 / 100)` gives 29. -/
theorem progress_floor_formula_counterexample :
    completedCount wfHundredEx = 29
    ∧ wfHundredEx.steps.length = 100
    ∧ wfHundredEx.progress = 28
    ∧ 100 * completedCount wfHundredEx / wfHundredEx.steps.length = 29
    ∧ (28 : Nat) ≠ 29 := by
  refine ⟨by decide, by decide, by decide, by decide, by decide⟩

/-- Witness for the amended C6 at concrete workflows: the zero-step
workflow has progress 0; the 29-of-100 workflow stays within the bound. -/
theorem progress_binary64_bounds_witness :
    wfDoneEx.progress = 0 ∧ wfHundredEx.progress ≤ 100 :=
  ⟨(progress_binary64_bounds wfDoneEx).2 rfl,
    (progress_binary64_bounds wfHundredEx).1⟩

/-- C4: starting a workflow that is already running returns failure and
leaves the entire manager state — the workflow store (hence the
workflow's status, timestamps, steps and log) and the active-run
registry — unchanged. -/
theorem start_on_running_rejected (m : WorkflowManager) (workflow_id : String)
    (now : Nat) (wf : Workflow)
    (hlook : lookupWorkflow m workflow_id = some wf)
    (hrun : wf.status = WorkflowStatus.running) :
    start_workflow m workflow_id now = (false, m) := by
  unfold start_workflow
  rw [hlook]
  dsimp only
  rw [if_pos hrun]

/-- Witness for C4 at a concrete manager holding one running workflow. -/
theorem start_on_running_rejected_witness :
    start_workflow mgrRunningEx "wf4" 7 = (false, mgrRunningEx) :=
  start_on_running_rejected mgrRunningEx "wf4" 7 wfRunningEx rfl rfl

/-- C5: cancelling an unknown workflow id returns failure and changes no
state; cancelling any existing workflow returns success and leaves that
workflow cancelled with its completion instant set. -/
theorem cancel_workflow_contract (m : WorkflowManager) (workflow_id : String)
    (now : Nat) :
    (lookupWorkflow m workflow_id = none →
      cancel_workflow m workflow_id now = (false, m))
    ∧ (∀ wf, lookupWorkflow m workflow_id = some wf →
        (cancel_workflow m workflow_id now).1 = true
        ∧ ∃ wf2,
            lookupWorkflow (cancel_workflow m workflow_id now).2 workflow_id =
              some wf2
            ∧ wf2.status = WorkflowStatus.cancelled
            ∧ wf2.completed_at = some now) := by
  constructor
  · intro hnone
    unfold cancel_workflow
    rw [hnone]
  · intro wf hlook
    unfold cancel_workflow
    rw [hlook]
    dsimp only
    refine ⟨rfl,
      ({ wf with
          status := WorkflowStatus.cancelled
          completed_at := some now }).add_log now "warning"
            "Workflow cancelado pelo usuário", ?_, rfl, rfl⟩
    exact lookupWorkflow_put m.workflows _ workflow_id _

/-- Witness for C5: cancelling a missing id fails and changes nothing;
cancelling the stored completed workflow succeeds and cancels it. -/
theorem cancel_workflow_contract_witness :
    cancel_workflow mgrDoneEx "nope" 9 = (false, mgrDoneEx)
    ∧ (cancel_workflow mgrDoneEx "wf3" 9).1 = true := by
  constructor
  · exact (cancel_workflow_contract mgrDoneEx "nope" 9).1 rfl
  · exact ((cancel_workflow_contract mgrDoneEx "wf3" 9).2 wfDoneEx rfl).1

/-- C1 counterexample: `wf3` is stored with the terminal status completed,
yet `cancel_workflow` succeeds on it and changes its status to cancelled
— a subsequent manager operation changed a terminal status. -/
theorem terminal_status_change_counterexample :
    wfDoneEx.status = WorkflowStatus.completed
    ∧ (lookupWorkflow (cancel_workflow mgrDoneEx "wf3" 9).2 "wf3").map
        (fun w => w.status) = some WorkflowStatus.cancelled
    ∧ WorkflowStatus.cancelled ≠ WorkflowStatus.completed := by
  refine ⟨rfl, rfl, ?_⟩
  intro h
  cases h

/-- C1 amended: a terminal status is not stable: for every stored workflow
in a terminal status, `start_workflow` succeeds and re-sets the status to
running, and `cancel_workflow` succeeds and sets the status to cancelled
(only a running workflow is protected, and only against start). -/
theorem terminal_status_not_preserved (m : WorkflowManager)
    (workflow_id : String) (now : Nat) (wf : Workflow)
    (hlook : lookupWorkflow m workflow_id = some wf)
    (hterm : isTerminal wf.status) :
    ((start_workflow m workflow_id now).1 = true
      ∧ ∃ wf2,
          lookupWorkflow (start_workflow m workflow_id now).2 workflow_id =
            some wf2
          ∧ wf2.status = WorkflowStatus.running)
    ∧ ((cancel_workflow m workflow_id now).1 = true
      ∧ ∃ wf2,
          lookupWorkflow (cancel_workflow m workflow_id now).2 workflow_id =
            some wf2
          ∧ wf2.status = WorkflowStatus.cancelled) := by
  have hne : wf.status ≠ WorkflowStatus.running := by
    rcases hterm with h | h | h <;> rw [h] <;> intro hc <;> cases hc
  constructor
  · unfold start_workflow
    rw [hlook]
    dsimp only
    rw [if_neg hne]
    exact ⟨rfl,
      ({ wf with
          status := WorkflowStatus.running
          started_at := some now }).add_log now "info" "Workflow iniciado",
      lookupWorkflow_put m.workflows _ workflow_id _, rfl⟩
  · unfold cancel_workflow
    rw [hlook]
    dsimp only
    exact ⟨rfl,
      ({ wf with
          status := WorkflowStatus.cancelled
          completed_at := some now }).add_log now "warning"
            "Workflow cancelado pelo usuário",
      lookupWorkflow_put m.workflows _ workflow_id _, rfl⟩

/-- Witness for the amended C1 at the stored completed workflow `wf3`. -/
theorem terminal_status_not_preserved_witness :
    (start_workflow mgrDoneEx "wf3" 9).1 = true
    ∧ (cancel_workflow mgrDoneEx "wf3" 9).1 = true := by
  have h := terminal_status_not_preserved mgrDoneEx "wf3" 9 wfDoneEx rfl
    (Or.inl rfl)
  exact ⟨h.1.1, h.2.1⟩

/-- C7: instantiating from template key `ci-cd` yields exactly the four
steps code review, unit tests, integration tests, deploy in that order,
each with empty `depends_on`; any unknown template key yields zero steps
(and `create_workflow` is total — no error is possible). -/
theorem template_instantiation_contract (m : WorkflowManager)
    (name description team created_by wfId : String) (stepId : Nat → String)
    (now : Nat) (key : String) :
    ((create_workflow m name description team (some "ci-cd") created_by wfId
        stepId now).1.steps.map (fun s => s.name) =
      ["Revisão de Código", "Testes Unitários", "Testes de Integração",
        "Deploy"])
    ∧ ((create_workflow m name description team (some "ci-cd") created_by wfId
        stepId now).1.steps.map (fun s => s.depends_on) = [[], [], [], []])
    ∧ (lookupTemplate key = none →
        (create_workflow m name description team (some key) created_by wfId
          stepId now).1.steps = []) := by
  refine ⟨rfl, rfl, ?_⟩
  intro hnone
  simp only [create_workflow]
  by_cases hk : key = ""
  · rw [if_pos hk]
    rfl
  · rw [if_neg hk, hnone]
    rfl

/-- Witness for C7: the concrete 4-step `ci-cd` instantiation and a
concrete unknown key yielding zero steps. -/
theorem template_instantiation_contract_witness :
    ((create_workflow mgrEmptyEx "N" "" "" (some "ci-cd") "system" "wf9"
        stepIdEx 7).1.steps.map (fun s => s.name) =
      ["Revisão de Código", "Testes Unitários", "Testes de Integração",
        "Deploy"])
    ∧ (create_workflow mgrEmptyEx "N" "" "" (some "inexistente") "system"
        "wf9" stepIdEx 7).1.steps = [] := by
  have h := template_instantiation_contract mgrEmptyEx "N" "" "" "system"
    "wf9" stepIdEx 7 "inexistente"
  exact ⟨h.1, h.2.2 rfl⟩

/-- C8: `list_workflows` returns only stored workflows matching the exact
status filter (all stored workflows when no filter is given and the limit
allows), sorted by creation instant descending, truncated to at most
`limit` entries. -/
theorem list_workflows_contract (m : WorkflowManager)
    (status : Option WorkflowStatus) (limit : Nat) :
    (∀ w ∈ list_workflows m status limit,
        w ∈ m.workflows.map (fun p => p.2)
        ∧ ∀ st, status = some st → w.status = st)
    ∧ List.Pairwise byCreatedDesc (list_workflows m status limit)
    ∧ (list_workflows m status limit).length ≤ limit
    ∧ (m.workflows.length ≤ limit →
        (list_workflows m none limit).Perm
          (m.workflows.map (fun p => p.2))) := by
  refine ⟨?_, ?_, ?_, ?_⟩
  · intro w hw
    cases status with
    | none =>
      unfold list_workflows at hw
      have hw2 := (List.take_sublist _ _).subset hw
      have hw3 := (List.perm_insertionSort byCreatedDesc _).subset hw2
      exact ⟨hw3, fun st hst => by cases hst⟩
    | some st0 =>
      unfold list_workflows at hw
      have hw2 := (List.take_sublist _ _).subset hw
      have hw3 := (List.perm_insertionSort byCreatedDesc _).subset hw2
      have hw4 := List.mem_filter.mp hw3
      refine ⟨hw4.1, ?_⟩
      intro st hst
      injection hst with hst2
      subst hst2
      have := hw4.2
      simpa using this
  · unfold list_workflows
    cases status with
    | none =>
      exact List.Pairwise.sublist (List.take_sublist _ _)
        (List.sorted_insertionSort byCreatedDesc _)
    | some st0 =>
      exact List.Pairwise.sublist (List.take_sublist _ _)
        (List.sorted_insertionSort byCreatedDesc _)
  · unfold list_workflows
    cases status with
    | none => simp [List.length_take]
    | some st0 => simp [List.length_take]
  · intro hlim
    unfold list_workflows
    have hlen :
        (List.insertionSort byCreatedDesc
          (m.workflows.map (fun p => p.2))).length = m.workflows.length := by
      rw [List.length_insertionSort]
      exact List.length_map _ _
    rw [List.take_of_length_le (le_trans (le_of_eq hlen) hlim)]
    exact List.perm_insertionSort byCreatedDesc _

/-- Witness for C8: with a generous limit and no filter, the listing is a
permutation of the two stored workflows. -/
theorem list_workflows_contract_witness :
    (list_workflows mgrTwoEx none 5).Perm
      (mgrTwoEx.workflows.map (fun p => p.2)) :=
  (list_workflows_contract mgrTwoEx none 5).2.2.2 (by decide)

/-- C9: when every dispatch in the run succeeds (so the main loop exits
without any step failure), the workflow is marked completed — even if
steps were skipped over with unmet dependencies and remain pending, so a
completed workflow may show progress strictly below 100 (see the
witness). -/
theorem no_step_failure_completes (outcome : Outcome) (clk : Nat)
    (w : Workflow) (hrun : w.status = WorkflowStatus.running)
    (hsucc : ∀ k, k < w.steps.length →
      ∃ sid, outcome k = Except.ok (DispatchOutcome.success sid)) :
    (execute_workflow outcome clk w).status = WorkflowStatus.completed := by
  obtain ⟨w2, heq, hst⟩ := execSteps_all_success outcome clk
    (List.range w.steps.length) w
    (fun k hk => hsucc k (List.mem_range.mp hk))
  unfold execute_workflow
  rw [heq]
  refine finalizeRun_status_of_not_failed clk w2 ?_
  rw [hst, hrun]
  intro hc
  cases hc

/-- Witness for C9: in the forward-dependency workflow every dispatch
succeeds; the run completes the workflow while its first step stays
pending, leaving progress at 50 < 100. -/
theorem no_step_failure_completes_witness :
    (execute_workflow outcomeAllOkEx 2 wfFwdDepEx).status =
      WorkflowStatus.completed
    ∧ (execute_workflow outcomeAllOkEx 2 wfFwdDepEx).steps.map
        (fun s => s.status) = [StepStatus.pending, StepStatus.completed]
    ∧ (execute_workflow outcomeAllOkEx 2 wfFwdDepEx).progress = 50 := by
  refine ⟨no_step_failure_completes outcomeAllOkEx 2 wfFwdDepEx rfl ?_, ?_, ?_⟩
  · intro k hk
    exact ⟨none, rfl⟩
  · rfl
  · rfl

/-- C10: an unexpected exception escaping the main loop is caught only at
the outermost level: the workflow's status is forced to failed but its
completion instant is left untouched (it is recorded only by the normal
loop-exit epilogue or by cancellation). -/
theorem crash_marks_failed_without_completion (outcome : Outcome) (clk : Nat)
    (w wi : Workflow) (i : Nat) (msg : String)
    (hpre : execSteps outcome clk (List.range i) w = ExecResult.finished wi)
    (hi : i < w.steps.length)
    (hout : outcome i = Except.error msg) :
    (execute_workflow outcome clk w).status = WorkflowStatus.failed
    ∧ (execute_workflow outcome clk w).completed_at = w.completed_at := by
  obtain ⟨tail, hrange, htail⟩ := range_split i w.steps.length hi
  unfold execute_workflow
  rw [hrange, execSteps_append, hpre]
  dsimp only [ExecResult.seq]
  rw [execSteps, hout]
  refine ⟨rfl, ?_⟩
  have h1 := execSteps_completed_at outcome clk (List.range i) w
  rw [hpre] at h1
  exact h1

/-- Witness for C10: a crash on the first iteration fails the started
workflow and leaves its completion instant unset. -/
theorem crash_marks_failed_without_completion_witness :
    (execute_workflow outcomeCrashEx 2 wfPlainEx).status =
      WorkflowStatus.failed
    ∧ (execute_workflow outcomeCrashEx 2 wfPlainEx).completed_at = none := by
  have h := crash_marks_failed_without_completion outcomeCrashEx 2 wfPlainEx
    wfPlainEx 0 "surpresa" rfl (by decide) rfl
  exact ⟨h.1, h.2⟩

/-- C2: a step whose `depends_on` names a step that is not completed at
the moment the scheduler examines it is re-set to pending and skipped;
the single forward pass never revisits it, so at the end of the run — the
only pass the scheduler ever makes — the step is still pending (it was
never transitioned to running). `wi` is the loop state upon reaching
iteration `i`. -/
theorem unmet_dependency_stays_pending (outcome : Outcome) (clk : Nat)
    (w wi : Workflow) (i : Nat) (st : WorkflowStep) (d : DispatchOutcome)
    (hpre : execSteps outcome clk (List.range i) w = ExecResult.finished wi)
    (hst : wi.steps[i]? = some st)
    (hdeps : (pendingDeps wi.steps st).isEmpty = false)
    (hout : outcome i = Except.ok d) :
    ((execute_workflow outcome clk w).steps[i]?).map (fun s => s.status) =
      some StepStatus.pending := by
  have hlenpre : wi.steps.length = w.steps.length := by
    have h := execSteps_steps_length outcome clk (List.range i) w
    rw [hpre] at h
    exact h
  have hi_wi : i < wi.steps.length := (List.getElem?_eq_some.mp hst).1
  have hi_lt : i < w.steps.length := hlenpre ▸ hi_wi
  obtain ⟨tail, hrange, htail⟩ := range_split i w.steps.length hi_lt
  unfold execute_workflow
  rw [hrange, execSteps_append, hpre]
  dsimp only [ExecResult.seq]
  rw [execSteps, hout]
  rw [hst]
  dsimp only
  rw [if_neg (by rw [hdeps]; exact Bool.false_ne_true)]
  have hskip : (stepSkip clk (withCursor wi i) i st).steps[i]? =
      some { st with status := StepStatus.pending } := by
    rw [stepSkip_steps, withCursor_steps, modifyAt_getElem?_self, hst]
    rfl
  have hunt := execSteps_getElem?_of_ne outcome clk tail
    (stepSkip clk (withCursor wi i) i st) i
    (fun k hk => Nat.ne_of_gt (htail k hk))
  cases hres : execSteps outcome clk tail (stepSkip clk (withCursor wi i) i st) with
  | finished w2 =>
    rw [hres] at hunt
    dsimp only [ExecResult.wf] at hunt
    rw [finalizeRun_steps, hunt, hskip]
    rfl
  | broke w2 =>
    rw [hres] at hunt
    dsimp only [ExecResult.wf] at hunt
    rw [finalizeRun_steps, hunt, hskip]
    rfl
  | crashed w2 msg2 =>
    rw [hres] at hunt
    dsimp only [ExecResult.wf] at hunt
    dsimp only [Workflow.add_log]
    rw [hunt, hskip]
    rfl

/-- Witness for C2: in the forward-dependency workflow, step 0 depends on
step 1 which is still pending when step 0 is examined; after the whole
run step 0 is still pending. -/
theorem unmet_dependency_stays_pending_witness :
    ((execute_workflow outcomeAllOkEx 2 wfFwdDepEx).steps[0]?).map
      (fun s => s.status) = some StepStatus.pending :=
  unmet_dependency_stays_pending outcomeAllOkEx 2 wfFwdDepEx wfFwdDepEx 0
    stepAEx (DispatchOutcome.success none) rfl rfl rfl rfl

/-- C3: when a step's dispatch/settle raises a failure, that step ends
failed with its error text recorded, the workflow ends failed, the cursor
stays at the failed step, and every later step is left exactly as it was
at the start of the run (never examined or executed). `wi` is the loop
state upon reaching iteration `i`. -/
theorem step_failure_aborts_workflow (outcome : Outcome) (clk : Nat)
    (w wi : Workflow) (i : Nat) (st : WorkflowStep) (msg : String)
    (hpre : execSteps outcome clk (List.range i) w = ExecResult.finished wi)
    (hst : wi.steps[i]? = some st)
    (hdeps : (pendingDeps wi.steps st).isEmpty = true)
    (hout : outcome i = Except.ok (DispatchOutcome.failure msg)) :
    ((execute_workflow outcome clk w).steps[i]?).map (fun s => s.status) =
      some StepStatus.failed
    ∧ ((execute_workflow outcome clk w).steps[i]?).map (fun s => s.error) =
      some (some msg)
    ∧ (execute_workflow outcome clk w).status = WorkflowStatus.failed
    ∧ (execute_workflow outcome clk w).current_step_index = i
    ∧ (∀ j, i < j →
        (execute_workflow outcome clk w).steps[j]? = w.steps[j]?) := by
  have hlenpre : wi.steps.length = w.steps.length := by
    have h := execSteps_steps_length outcome clk (List.range i) w
    rw [hpre] at h
    exact h
  have hi_wi : i < wi.steps.length := (List.getElem?_eq_some.mp hst).1
  have hi_lt : i < w.steps.length := hlenpre ▸ hi_wi
  obtain ⟨tail, hrange, htail⟩ := range_split i w.steps.length hi_lt
  have hwpre : ∀ j, i < j → wi.steps[j]? = w.steps[j]? := by
    intro j hj
    have h2 := execSteps_getElem?_of_ne outcome clk (List.range i) w j
      (fun k hk => Nat.ne_of_lt (lt_trans (List.mem_range.mp hk) hj))
    rw [hpre] at h2
    exact h2
  unfold execute_workflow
  rw [hrange, execSteps_append, hpre]
  dsimp only [ExecResult.seq]
  rw [execSteps, hout]
  rw [hst]
  dsimp only
  rw [if_pos hdeps]
  dsimp only
  refine ⟨?_, ?_, ?_, ?_, ?_⟩
  · rw [finalizeRun_steps, stepFail_steps, withCursor_steps,
      modifyAt_getElem?_self, modifyAt_getElem?_self, hst]
    rfl
  · rw [finalizeRun_steps, stepFail_steps, withCursor_steps,
      modifyAt_getElem?_self, modifyAt_getElem?_self, hst]
    rfl
  · exact finalizeRun_status_of_failed clk _ (stepFail_status clk _ i st msg)
  · rw [finalizeRun_cursor]
    rfl
  · intro j hj
    rw [finalizeRun_steps, stepFail_steps, withCursor_steps,
      modifyAt_getElem?_ne _ _ _ _ (Nat.ne_of_gt hj),
      modifyAt_getElem?_ne _ _ _ _ (Nat.ne_of_gt hj)]
    exact hwpre j hj

/-- Witness for C3: in the plain two-step workflow the first dispatch
fails; step 0 ends failed, the workflow ends failed, and step 1 is left
untouched. -/
theorem step_failure_aborts_workflow_witness :
    ((execute_workflow outcomeFailEx 2 wfPlainEx).steps[0]?).map
      (fun s => s.status) = some StepStatus.failed
    ∧ (execute_workflow outcomeFailEx 2 wfPlainEx).status =
      WorkflowStatus.failed
    ∧ (execute_workflow outcomeFailEx 2 wfPlainEx).steps[1]? =
      wfPlainEx.steps[1]? := by
  have h := step_failure_aborts_workflow outcomeFailEx 2 wfPlainEx wfPlainEx 0
    stepBEx "boom" rfl rfl rfl rfl
  exact ⟨h.1, h.2.2.1, h.2.2.2.2 1 (by decide)⟩

end MissionControl
